import Mathlib

/-!
# gorilla-redisstore: a shallow embedding of `store.go`

The store orchestrates four collaborators that it reaches through narrow
interfaces: the HTTP cookie reader/writer, the securecookie codecs, the
session serializer and the Redis client.  Each collaborator is represented by
the part of its contract that `store.go` relies on; the functions of
`store.go` itself (`New`, `Save`, `save`, `load`, `delete`, the setters and
`generateRandomKey`) are transcribed statement by statement.

Every call that the Go code makes on a collaborator is recorded in
`World.trace`, so that statements such as "no backend Set is performed" can be
phrased over the trace.
-/

namespace Redisstore

/-! ## Basic data -/

/-- A Go `byte`. -/
abbrev Byte := Fin 256

/-- A Go `[]byte`. -/
abbrev Bytes := List Byte

/-- Go `error` values that the store can observe.  `redisNil` is the sentinel
`redis.Nil`; `errNoCookie` is `http.ErrNoCookie`; `errNoCodecs` and
`multiError` are the two errors of `securecookie.EncodeMulti`/`DecodeMulti`;
`errorString` stands for any other error value (`errors.New(msg)`). -/
inductive GoError where
  | redisNil
  | errNoCookie
  | errNoCodecs
  | multiError (errs : List String)
  | errorString (msg : String)
deriving DecidableEq, Repr

/-- The type `sessions.Options`. -/
structure Options where
  Path : String
  Domain : String
  MaxAge : Int
  Secure : Bool
  HttpOnly : Bool
  SameSite : Nat
deriving DecidableEq, Repr

/-- The `Values` map of a session (`map[interface{}]interface{}`), kept as an
association list. -/
abbrev Values := List (String × String)

/-- The type `sessions.Session`.  `name` is the private field read by
`Name()`; `Options` is the struct that the Go field points to. -/
structure Session where
  ID : String
  Values : Values
  Options : Options
  IsNew : Bool
  name : String
deriving DecidableEq, Repr

/-- The method `(*sessions.Session).Name`. -/
def Session.Name (s : Session) : String := s.name

/-- The function `sessions.NewSession`: an empty `Values` map, the name, and
`Options: new(Options)`, the zero struct; the ID is empty and `IsNew` is false
until the store sets it. -/
def NewSession (name : String) : Session :=
  { ID := "", Values := [], Options := ⟨"", "", 0, false, false, 0⟩, IsNew := false, name := name }

/-! ## HTTP collaborator -/

/-- An `http.Cookie`, without the wall-clock field `Expires`. -/
structure Cookie where
  Name : String
  Value : String
  Path : String
  Domain : String
  MaxAge : Int
  Secure : Bool
  HttpOnly : Bool
  SameSite : Nat
deriving DecidableEq, Repr

/-- An `http.Request`, as far as the store reads it: the cookies of the
`Cookie` header, in order, as name/value pairs. -/
structure Request where
  cookies : List (String × String)
deriving DecidableEq, Repr

/-- The method `(*http.Request).Cookie`: the first cookie with the given name,
or `http.ErrNoCookie`.  The result is the cookie value `c.Value`. -/
def Request.Cookie (r : Request) (name : String) : Except GoError String :=
  match r.cookies.find? (fun c => c.1 == name) with
  | some c => .ok c.2
  | none => .error .errNoCookie

/-- An `http.ResponseWriter`, as far as the store writes it: the `Set-Cookie`
headers added so far.  An entry holds the name and the value as they are
written in `name=value`, and the attribute fields of the cookie from which the
rest of the header line is rendered. -/
structure ResponseWriter where
  cookies : List Cookie
deriving DecidableEq, Repr

/-- The function `sessions.NewCookie`: name, value and the attributes of the
options. -/
def NewCookie (name value : String) (o : Options) : Cookie :=
  { Name := name, Value := value, Path := o.Path, Domain := o.Domain, MaxAge := o.MaxAge,
    Secure := o.Secure, HttpOnly := o.HttpOnly, SameSite := o.SameSite }

/-- The function `httpguts.IsTokenRune`, on code points: the characters
`!#$%&*+-.^_|~`, the apostrophe, the grave accent, digits and ASCII letters. -/
def isTokenRune (r : Char) : Bool :=
  r.toNat == 33 || (35 ≤ r.toNat && r.toNat ≤ 39) || r.toNat == 42 || r.toNat == 43 ||
  r.toNat == 45 || r.toNat == 46 || (48 ≤ r.toNat && r.toNat ≤ 57) ||
  (65 ≤ r.toNat && r.toNat ≤ 90) || (94 ≤ r.toNat && r.toNat ≤ 122) ||
  r.toNat == 124 || r.toNat == 126

/-- The function `isCookieNameValid` of `net/http`: a non-empty name of token
characters. -/
def isCookieNameValid (raw : String) : Bool :=
  raw != "" && raw.data.all isTokenRune

/-- The function `validCookieValueByte` of `net/http`:
`0x20 <= b && b < 0x7f` and `b` none of the double quote (34), the semicolon
(59) and the backslash (92).  A character outside ASCII is a run of bytes from
`0x80` on, none of which is valid. -/
def validCookieValueByte (b : Char) : Bool :=
  32 ≤ b.toNat && b.toNat < 127 && b.toNat != 34 && b.toNat != 59 && b.toNat != 92

/-- The function `sanitizeOrWarn` of `net/http`: the string without its
invalid bytes. -/
def sanitizeOrWarn (valid : Char → Bool) (v : String) : String :=
  String.mk (v.data.filter valid)

/-- The function `sanitizeCookieValue` of `net/http`: invalid bytes are
dropped, and a value that holds a space or a comma is put in double
quotes. -/
def sanitizeCookieValue (v : String) : String :=
  let v := sanitizeOrWarn validCookieValueByte v
  if v.length = 0 then v
  else if v.data.any (fun c => c == ' ' || c == ',') then
    String.mk ([Char.ofNat 34] ++ v.data ++ [Char.ofNat 34])
  else v

/-- The function `http.SetCookie`: adds the `Set-Cookie` header that
`Cookie.String` renders, and nothing when that is empty, which is the case
exactly when the cookie name is not valid.  The value is written through
`sanitizeCookieValue`. -/
def SetCookie (w : ResponseWriter) (c : Cookie) : ResponseWriter :=
  if isCookieNameValid c.Name then
    { cookies := w.cookies ++ [{ c with Value := sanitizeCookieValue c.Value }] }
  else w

/-! ## Codec collaborator (`securecookie`) -/

/-- A `securecookie.Codec`.  `Decode` yields the decoded identifier; on failure
the destination is left as it was. -/
structure Codec where
  Encode : String → String → Except String String
  Decode : String → String → Except String String

/-- The loop of `securecookie.EncodeMulti`: the first codec that encodes
wins, the errors of the others are collected. -/
def encodeLoop (name value : String) : List Codec → List String → Except GoError String
  | [], errs => .error (.multiError errs)
  | c :: cs, errs =>
    match c.Encode name value with
    | .ok encoded => .ok encoded
    | .error e => encodeLoop name value cs (errs ++ [e])

/-- The function `securecookie.EncodeMulti`. -/
def EncodeMulti (name value : String) (codecs : List Codec) : Except GoError String :=
  if codecs.length = 0 then .error .errNoCodecs
  else encodeLoop name value codecs []

/-- The loop of `securecookie.DecodeMulti`: the first codec that decodes
wins, the errors of the others are collected. -/
def decodeLoop (name value : String) : List Codec → List String → Except GoError String
  | [], errs => .error (.multiError errs)
  | c :: cs, errs =>
    match c.Decode name value with
    | .ok dst => .ok dst
    | .error e => decodeLoop name value cs (errs ++ [e])

/-- The function `securecookie.DecodeMulti`. -/
def DecodeMulti (name value : String) (codecs : List Codec) : Except GoError String :=
  if codecs.length = 0 then .error .errNoCodecs
  else decodeLoop name value codecs []

/-! ## Serializer collaborator -/

/-- The interface `SessionSerializer`.  Implementations read and write the
`Values` of the session, as `GobSerializer` does: `Serialize` turns them into
a payload, `Deserialize` decodes a payload into the `Values` that the session
holds and reports the values it leaves there together with its error. -/
structure SessionSerializer where
  Serialize : Values → Except GoError Bytes
  Deserialize : Bytes → Values → Values × Option GoError

/-! ## Redis collaborator -/

/-- One stored value with the expiration that `Set` was given (a
`time.Duration`, in nanoseconds). -/
structure Entry where
  value : Bytes
  expiration : Int
deriving DecidableEq, Repr

/-- The state of the Redis server as seen through the client, with the
contract that the store relies on: `Set` stores a value, `Get` of an absent
key fails with `redis.Nil`, `Del` of an absent key is not an error.  `data`
holds the stored entries; `fault` is the error with which every command fails
while the server cannot be reached, and a failing command changes nothing. -/
structure Redis where
  data : String → Option Entry
  fault : Option GoError

/-- A `redis.StringCmd`: the reply of `Get`. -/
structure StringCmd where
  val : Bytes
  err : Option GoError
deriving DecidableEq, Repr

/-- The method `(*redis.StringCmd).Err`. -/
def StringCmd.Err (cmd : StringCmd) : Option GoError := cmd.err

/-- The method `(*redis.StringCmd).Bytes`: the value together with the error
of the command. -/
def StringCmd.Bytes (cmd : StringCmd) : Bytes × Option GoError := (cmd.val, cmd.err)

/-- The command `GET key`: the stored value, `redis.Nil` when the key is
absent. -/
def Redis.Get (r : Redis) (key : String) : StringCmd :=
  match r.fault with
  | some e => { val := [], err := some e }
  | none =>
    match r.data key with
    | some entry => { val := entry.value, err := none }
    | none => { val := [], err := some .redisNil }

/-- The command `SET key value` with an expiration. -/
def Redis.Set (r : Redis) (key : String) (value : Bytes) (expiration : Int) :
    Redis × Option GoError :=
  match r.fault with
  | some e => (r, some e)
  | none =>
    ({ r with data := fun k => if k = key then some ⟨value, expiration⟩ else r.data k }, none)

/-- The command `DEL key`; deleting an absent key is not an error. -/
def Redis.Del (r : Redis) (key : String) : Redis × Option GoError :=
  match r.fault with
  | some e => (r, some e)
  | none => ({ r with data := fun k => if k = key then none else r.data k }, none)

/-! ## The world the store runs in -/

/-- The bytes that the system random source can still deliver. -/
abbrev RandSource := List Byte

/-- A call made by the store on one of its collaborators. -/
inductive Event where
  | redisGet (key : String)
  | redisSet (key : String) (value : Bytes) (expiration : Int)
  | redisDel (key : String)
  | encodeMulti (name value : String)
  | decodeMulti (name value : String)
  | keyGen
deriving DecidableEq, Repr

/-- Everything outside the store that its methods read or change: the Redis
server, the random source, and the trace of collaborator calls made so far. -/
structure World where
  redis : Redis
  rand : RandSource
  trace : List Event

/-- The type `KeyGenFunc`: a `func() string`, which may draw on the random
source. -/
abbrev KeyGenFunc := RandSource → String × RandSource

/-! ## Library functions used by `generateRandomKey` -/

/-- The alphabet of `base32.StdEncoding` (RFC 4648). -/
def encodeStd : List Char :=
  ['A', 'B', 'C', 'D', 'E', 'F', 'G', 'H', 'I', 'J', 'K', 'L', 'M', 'N', 'O', 'P',
   'Q', 'R', 'S', 'T', 'U', 'V', 'W', 'X', 'Y', 'Z', '2', '3', '4', '5', '6', '7']

/-- The padding character of `base32.StdEncoding`. -/
def padChar : Char := '='

/-- The table lookup `enc.encode[b & 31]`. -/
def encodeChar (b : Nat) : Char := encodeStd.getD (b % 32) 'A'

/-- The eight 5-bit groups that `base32.Encoding.Encode` computes from one
quantum of five bytes; a missing byte of the last quantum contributes no bits,
which is the value 0 here.  Shifts and masks on bytes are written with
division and remainder: `x >> n` is `x / 2 ^ n`, `(x << n) & 0x1F` is
`x * 2 ^ n % 32`, and the two halves of a group occupy different bits, so
that their `|` is their sum. -/
def quantumGroups (s0 s1 s2 s3 s4 : Nat) : List Nat :=
  [ s0 / 8,
    s0 * 4 % 32 + s1 / 64,
    s1 / 2 % 32,
    s1 * 16 % 32 + s2 / 16,
    s2 * 2 % 32 + s3 / 128,
    s3 / 4 % 32,
    s3 * 8 % 32 + s4 / 32,
    s4 % 32 ]

/-- The characters of `base32.StdEncoding.EncodeToString`: eight characters
per quantum of five bytes, the last quantum padded with `=` to eight. -/
def encodeChars : Bytes → List Char
  | s0 :: s1 :: s2 :: s3 :: s4 :: rest =>
    (quantumGroups s0 s1 s2 s3 s4).map encodeChar ++ encodeChars rest
  | [s0, s1, s2, s3] =>
    ((quantumGroups s0 s1 s2 s3 0).take 7).map encodeChar ++ List.replicate 1 padChar
  | [s0, s1, s2] =>
    ((quantumGroups s0 s1 s2 0 0).take 5).map encodeChar ++ List.replicate 3 padChar
  | [s0, s1] =>
    ((quantumGroups s0 s1 0 0 0).take 4).map encodeChar ++ List.replicate 4 padChar
  | [s0] =>
    ((quantumGroups s0 0 0 0 0).take 2).map encodeChar ++ List.replicate 6 padChar
  | [] => []

/-- Membership in the ranges `A`-`Z` and `2`-`7`. -/
def isStdChar (c : Char) : Bool :=
  ('A'.toNat ≤ c.toNat && c.toNat ≤ 'Z'.toNat) || ('2'.toNat ≤ c.toNat && c.toNat ≤ '7'.toNat)

/-- A character of the encoding proper: in the alphabet, in the ranges `A`-`Z`
and `2`-`7`, and not the padding character. -/
def StdChar (c : Char) : Prop := c ∈ encodeStd ∧ isStdChar c = true ∧ c ≠ padChar

/-- The method `base32.StdEncoding.EncodeToString`. -/
def EncodeToString (src : Bytes) : String := String.mk (encodeChars src)

/-- The function `strings.TrimRight`: drops every trailing character that
occurs in the cutset. -/
def TrimRight (s cutset : String) : String :=
  String.mk (s.data.rdropWhile (fun c => cutset.data.contains c))

/-- The function `securecookie.GenerateRandomKey`: `length` bytes read from
the random source with `io.ReadFull`, or nil when the source cannot deliver
them; the failed read has used up what the source had. -/
def GenerateRandomKey (length : Nat) (src : RandSource) : Option Bytes × RandSource :=
  if length ≤ src.length then (some (src.take length), src.drop length) else (none, [])

/-! ## `store.go` -/

/-- The constant `sessionExpire`. -/
def sessionExpire : Int := 86400 * 30

/-- The struct `RedisStore`; its `client` is the `redis` component of the
`World`. -/
structure RedisStore where
  Codecs : List Codec
  options : Options
  keyPrefix : String
  keyGen : KeyGenFunc
  serializer : SessionSerializer
  maxLength : Int
  DefaultMaxAge : Int

/-- A Go `int64` product wrapped to 64 bits, two's complement. -/
def wrapInt64 (n : Int) : Int :=
  (n + 2 ^ 63) % 2 ^ 64 - 2 ^ 63

/-- The expression `time.Duration(age) * time.Second`, in nanoseconds. -/
def durationSeconds (age : Int) : Int := wrapInt64 (age * 1000000000)

/-- The method `RedisStore.Options`. -/
def RedisStore.Options (s : RedisStore) (opts : Options) : RedisStore :=
  { s with options := opts }

/-- The method `RedisStore.KeyPrefix`. -/
def RedisStore.KeyPrefix (s : RedisStore) (keyPrefix : String) : RedisStore :=
  { s with keyPrefix := keyPrefix }

/-- The method `RedisStore.SetMaxLength`. -/
def RedisStore.SetMaxLength (s : RedisStore) (l : Int) : RedisStore :=
  if l ≥ 0 then { s with maxLength := l } else s

/-- The method `RedisStore.KeyGen`. -/
def RedisStore.KeyGen (s : RedisStore) (f : KeyGenFunc) : RedisStore :=
  { s with keyGen := f }

/-- The method `RedisStore.Serializer`. -/
def RedisStore.Serializer (s : RedisStore) (ss : SessionSerializer) : RedisStore :=
  { s with serializer := ss }

/-- The method `RedisStore.save`: serialize, check the size cap, pick the
age, `Set`. -/
def RedisStore.save (s : RedisStore) (env : World) (session : Session) :
    Option GoError × World :=
  match s.serializer.Serialize session.Values with
  | .error err => (some err, env)
  | .ok b =>
    if s.maxLength ≠ 0 ∧ (b.length : Int) > s.maxLength then
      (some (.errorString "sessionStore: the value to store is too big"), env)
    else
      let age := session.Options.MaxAge
      let age := if age = 0 then s.DefaultMaxAge else age
      let key := s.keyPrefix ++ session.ID
      let (redis, err) := env.redis.Set key b (durationSeconds age)
      (err, { env with redis := redis,
                       trace := env.trace ++ [.redisSet key b (durationSeconds age)] })

/-- The method `RedisStore.load`: `Get`, then deserialize into the session. -/
def RedisStore.load (s : RedisStore) (env : World) (session : Session) :
    Session × Option GoError × World :=
  let key := s.keyPrefix ++ session.ID
  let cmd := env.redis.Get key
  let env := { env with trace := env.trace ++ [.redisGet key] }
  match cmd.Err with
  | some err => (session, some err, env)
  | none =>
    match cmd.Bytes with
    | (_, some err) => (session, some err, env)
    | (b, none) =>
      let (values, err) := s.serializer.Deserialize b session.Values
      ({ session with Values := values }, err, env)

/-- The method `RedisStore.delete`. -/
def RedisStore.delete (s : RedisStore) (env : World) (session : Session) :
    Option GoError × World :=
  let key := s.keyPrefix ++ session.ID
  let (redis, err) := env.redis.Del key
  (err, { env with redis := redis, trace := env.trace ++ [.redisDel key] })

/-- What `New` returns, with the world it leaves. -/
structure NewResult where
  session : Session
  err : Option GoError
  world : World

/-- The method `RedisStore.New`. -/
def RedisStore.New (s : RedisStore) (env : World) (r : Request) (name : String) : NewResult :=
  let session := NewSession name
  let opts := s.options
  let session := { session with Options := opts }
  let session := { session with IsNew := true }
  match r.Cookie name with
  | .error _ => ⟨session, none, env⟩
  | .ok cValue =>
    let session := { session with ID := cValue }
    let env := { env with trace := env.trace ++ [.decodeMulti name cValue] }
    match DecodeMulti name cValue s.Codecs with
    | .error err => ⟨session, some err, env⟩
    | .ok id =>
      let session := { session with ID := id }
      match s.load env session with
      | (session, none, env) => ⟨{ session with IsNew := false }, none, env⟩
      | (session, some err, env) =>
        if err = .redisNil then ⟨session, none, env⟩ -- no data stored
        else ⟨session, some err, env⟩

/-- What `Save` returns, with the response, the session and the world it
leaves. -/
structure SaveResult where
  err : Option GoError
  w : ResponseWriter
  session : Session
  world : World

/-- The method `RedisStore.Save`. -/
def RedisStore.Save (s : RedisStore) (env : World) (w : ResponseWriter) (session : Session) :
    SaveResult :=
  -- Delete if max-age is <= 0
  if session.Options.MaxAge ≤ 0 then
    match s.delete env session with
    | (some err, env) => ⟨some err, w, session, env⟩
    | (none, env) => ⟨none, SetCookie w (NewCookie session.Name "" session.Options), session, env⟩
  else
    let gen : Except (GoError × World) (Session × World) :=
      if session.ID = "" then
        let (id, rand) := s.keyGen env.rand
        let env := { env with rand := rand, trace := env.trace ++ [.keyGen] }
        if id = "" then
          .error (.errorString "redisstore: failed to generate session id", env)
        else .ok ({ session with ID := id }, env)
      else .ok (session, env)
    match gen with
    | .error (err, env) => ⟨some err, w, session, env⟩
    | .ok (session, env) =>
      match s.save env session with
      | (some err, env) => ⟨some err, w, session, env⟩
      | (none, env) =>
        let env := { env with trace := env.trace ++ [.encodeMulti session.Name session.ID] }
        match EncodeMulti session.Name session.ID s.Codecs with
        | .error err => ⟨some err, w, session, env⟩
        | .ok encoded =>
          ⟨none, SetCookie w (NewCookie session.Name encoded session.Options), session, env⟩

/-- The function `generateRandomKey`. -/
def generateRandomKey : KeyGenFunc := fun src =>
  match GenerateRandomKey 64 src with
  | (none, src) => ("", src)
  | (some k, src) => (TrimRight (EncodeToString k) "=", src)

/-- The function `NewRedisStore`, given the codecs that
`securecookie.CodecsFromPairs` builds from the key pairs and the serializer
`GobSerializer{}`; the second component is the error of `Ping`. -/
def NewRedisStore (env : World) (codecs : List Codec) (gob : SessionSerializer) :
    RedisStore × Option GoError :=
  ({ options := { Path := "/", Domain := "", MaxAge := sessionExpire, Secure := false,
                  HttpOnly := false, SameSite := 0 },
     Codecs := codecs,
     keyPrefix := "session:",
     keyGen := generateRandomKey,
     serializer := gob,
     maxLength := 0,
     DefaultMaxAge := 60 * 20 },
   env.redis.fault)

/-- The collaborator calls made between two worlds: the part of the later
trace that comes after the earlier one. -/
def eventsSince (before after : World) : List Event :=
  after.trace.drop before.trace.length

/-! ## Sample collaborators -/

/-- A codec without keys: the token is the identifier itself. -/
def plainCodec : Codec :=
  { Encode := fun _ value => .ok value, Decode := fun _ value => .ok value }

/-- A codec whose key verifies no token. -/
def strictCodec : Codec :=
  { Encode := fun _ value => .ok value,
    Decode := fun _ _ => .error "securecookie: the value is not valid" }

/-- A serializer with a two-entry code book: the empty map is the payload
`[0]`, the map `key = value2` is the payload `[1, 2, 3]`. -/
def bookSerializer : SessionSerializer :=
  { Serialize := fun values =>
      if values = [] then .ok [0]
      else if values = [("key", "value2")] then .ok [1, 2, 3]
      else .error (.errorString "book: value not listed"),
    Deserialize := fun b values =>
      if b = [0] then ([], none)
      else if b = [1, 2, 3] then ([("key", "value2")], none)
      else (values, some (.errorString "book: payload not listed")) }

/-- A Redis server that holds nothing and answers. -/
def emptyRedis : Redis := { data := fun _ => none, fault := none }

/-- A world with an empty server, no random bytes left and no calls made. -/
def emptyWorld : World := { redis := emptyRedis, rand := [], trace := [] }

/-- The store that `NewRedisStore` builds over `plainCodec` and
`bookSerializer`. -/
def sampleStore : RedisStore := (NewRedisStore emptyWorld [plainCodec] bookSerializer).1

/-- A session named `hello` with the given ID, values and `MaxAge`. -/
def sampleSession (id : String) (values : Values) (maxAge : Int) : Session :=
  { ID := id, Values := values,
    Options := { Path := "/", Domain := "", MaxAge := maxAge, Secure := false,
                 HttpOnly := false, SameSite := 0 },
    IsNew := true, name := "hello" }

/-- The sample store with `strictCodec` as its only codec. -/
def strictStore : RedisStore := { sampleStore with Codecs := [strictCodec] }

/-- A serializer whose `Deserialize` reports the error value `redis.Nil`. -/
def nilSerializer : SessionSerializer :=
  { Serialize := fun _ => .ok [0],
    Deserialize := fun _ values => (values, some .redisNil) }

/-- A world whose server holds the payload `[0]` under `session:abc`. -/
def storedWorld : World :=
  { redis := { data := fun k => if k = "session:abc" then some ⟨[0], 60⟩ else none,
               fault := none },
    rand := [], trace := [] }

/-- A request whose `Cookie` header holds one cookie. -/
def requestWith (name value : String) : Request := { cookies := [(name, value)] }

/-- The sample store with `nilSerializer` as its serializer. -/
def nilStore : RedisStore := sampleStore.Serializer nilSerializer

/-! ## Theorems -/

theorem append_eq_self_iff (p q : String) : p ++ q = p ↔ q = "" := by
  constructor
  · intro h
    have h1 : (p ++ q).data = p.data := by rw [h]
    rw [String.data_append] at h1
    have h2 : q.data = [] := by simpa using h1
    exact String.ext h2
  · rintro rfl
    exact String.ext (by simp)

/-- Shape of a successful `Save` of a live session (`MaxAge > 0`): the
identifier in use is the session ID or, when that is empty, the generated one;
the payload was stored under `keyPrefix + id`, and the cookie carries the
token that `EncodeMulti` produced for the identifier. -/
theorem Save_ok_shape (s : RedisStore) (env : World) (w : ResponseWriter) (session : Session)
    (hage : 0 < session.Options.MaxAge) (hok : (s.Save env w session).err = none) :
    ∃ (id : String) (b : Bytes) (tok : String),
      id ≠ "" ∧
      id = (if session.ID = "" then (s.keyGen env.rand).1 else session.ID) ∧
      s.serializer.Serialize session.Values = .ok b ∧
      EncodeMulti session.name id s.Codecs = .ok tok ∧
      (s.Save env w session).session = { session with ID := id } ∧
      (s.Save env w session).w = SetCookie w (NewCookie session.name tok session.Options) ∧
      (s.Save env w session).world.redis.fault = none ∧
      (s.Save env w session).world.redis.data (s.keyPrefix ++ id)
        = some ⟨b, durationSeconds session.Options.MaxAge⟩ ∧
      Event.redisSet (s.keyPrefix ++ id) b (durationSeconds session.Options.MaxAge)
        ∈ eventsSince env (s.Save env w session).world := by
  have hage' : ¬ session.Options.MaxAge ≤ 0 := by omega
  have hage0 : ¬ session.Options.MaxAge = 0 := by omega
  unfold RedisStore.Save at hok ⊢
  simp only [hage', if_false, Session.Name] at hok ⊢
  by_cases hid : session.ID = ""
  · by_cases hgen : (s.keyGen env.rand).1 = ""
    · simp [hid, hgen] at hok
    · simp only [hid, hgen, if_true, if_false] at hok ⊢
      unfold RedisStore.save Redis.Set at hok ⊢
      cases hser : s.serializer.Serialize session.Values with
      | error e => simp [hser] at hok
      | ok b =>
        by_cases hbig : s.maxLength ≠ 0 ∧ (b.length : Int) > s.maxLength
        · simp [hser, hbig] at hok
        · cases hf : env.redis.fault with
          | some e => simp [hser, hbig, hf] at hok
          | none =>
            cases hen : EncodeMulti session.name (s.keyGen env.rand).1 s.Codecs with
            | error e => simp [hser, hbig, hf, hen] at hok
            | ok tok =>
              refine ⟨(s.keyGen env.rand).1, b, tok, hgen, rfl, rfl, hen, ?_⟩
              simp [hbig, hf, hen, hage0, eventsSince]
  · simp only [hid, if_false] at hok ⊢
    unfold RedisStore.save Redis.Set at hok ⊢
    cases hser : s.serializer.Serialize session.Values with
    | error e => simp [hser] at hok
    | ok b =>
      by_cases hbig : s.maxLength ≠ 0 ∧ (b.length : Int) > s.maxLength
      · simp [hser, hbig] at hok
      · cases hf : env.redis.fault with
        | some e => simp [hser, hbig, hf] at hok
        | none =>
          cases hen : EncodeMulti session.name session.ID s.Codecs with
          | error e => simp [hser, hbig, hf, hen] at hok
          | ok tok =>
            refine ⟨session.ID, b, tok, hid, rfl, rfl, hen, ?_⟩
            simp [hbig, hf, hen, hage0, eventsSince]

theorem sanitizeCookieValue_empty : sanitizeCookieValue "" = "" := by
  decide

/-- C1, as stated, fails: the session is named `bad name`, which is not a
valid cookie name, and has `MaxAge = -1`; `Save` returns no error, deletes the
entry, and writes no cookie. -/
theorem Save_invalid_name_no_cookie_counterexample :
    ({ sampleSession "abc" [] (-1) with name := "bad name" } : Session).Options.MaxAge ≤ 0 ∧
    (sampleStore.Save storedWorld ⟨[]⟩
      { sampleSession "abc" [] (-1) with name := "bad name" }).err = none ∧
    (sampleStore.Save storedWorld ⟨[]⟩
      { sampleSession "abc" [] (-1) with name := "bad name" }).world.redis.data "session:abc"
      = none ∧
    (sampleStore.Save storedWorld ⟨[]⟩
      { sampleSession "abc" [] (-1) with name := "bad name" }).w.cookies = [] := by
  decide

/-- C1, amended: for a session with `Options.MaxAge <= 0`, `Save` returns no
error exactly when the `Del` succeeds, that is, when the server answers.  A
`Save` that returns no error leaves no backend entry at
`keyPrefix + session.ID` and every other entry as it was; the only
collaborator call it makes is the `Del` of that key (so no `Set` and no
`EncodeMulti`).  When `session.Name()` is a valid cookie name it adds one
cookie with that name, the empty value and the attributes of the session
options; when the name is not valid it leaves the response as it was. -/
theorem Save_nonpositive_maxAge_deletes (s : RedisStore) (env : World) (w : ResponseWriter)
    (session : Session) (hage : session.Options.MaxAge ≤ 0) :
    ((s.Save env w session).err = none ↔ env.redis.fault = none) ∧
    ((s.Save env w session).err = none →
      (s.Save env w session).world.redis.data (s.keyPrefix ++ session.ID) = none ∧
      (∀ k, k ≠ s.keyPrefix ++ session.ID →
        (s.Save env w session).world.redis.data k = env.redis.data k) ∧
      eventsSince env (s.Save env w session).world
        = [Event.redisDel (s.keyPrefix ++ session.ID)] ∧
      (∀ k v t, Event.redisSet k v t ∉ eventsSince env (s.Save env w session).world) ∧
      (∀ n v, Event.encodeMulti n v ∉ eventsSince env (s.Save env w session).world) ∧
      (isCookieNameValid session.Name = true →
        (s.Save env w session).w.cookies
          = w.cookies ++ [NewCookie session.Name "" session.Options] ∧
        (NewCookie session.Name "" session.Options).Name = session.Name ∧
        (NewCookie session.Name "" session.Options).Value = "") ∧
      (isCookieNameValid session.Name = false → (s.Save env w session).w = w)) := by
  unfold RedisStore.Save
  simp only [hage, if_true]
  unfold RedisStore.delete Redis.Del
  cases hf : env.redis.fault with
  | some e => simp
  | none =>
    refine ⟨by simp, fun _ => ⟨by simp, ?_, by simp [eventsSince], by simp [eventsSince],
      by simp [eventsSince], ?_, ?_⟩⟩
    · intro k hk
      simp [hk]
    · intro hv
      simp [SetCookie, NewCookie, sanitizeCookieValue_empty, hv]
    · intro hv
      simp [SetCookie, NewCookie, hv]

/-- C2: with a size cap `maxLength = L > 0`, saving a session with
`Options.MaxAge > 0` whose serialized payload is longer than `L` bytes returns
an error, leaves the Redis state as it was, performs no `Set`, and adds no
cookie to the response. -/
theorem Save_payload_too_large (s : RedisStore) (env : World) (w : ResponseWriter)
    (session : Session) (b : Bytes) (hL : 0 < s.maxLength)
    (hage : 0 < session.Options.MaxAge)
    (hser : s.serializer.Serialize session.Values = .ok b)
    (hbig : s.maxLength < (b.length : Int)) :
    (s.Save env w session).err ≠ none ∧
    (s.Save env w session).world.redis = env.redis ∧
    (∀ k v t, Event.redisSet k v t ∉ eventsSince env (s.Save env w session).world) ∧
    (s.Save env w session).w = w := by
  have hage' : ¬ session.Options.MaxAge ≤ 0 := by omega
  have hL' : s.maxLength ≠ 0 := by omega
  unfold RedisStore.Save
  simp only [hage', if_false]
  by_cases hid : session.ID = ""
  · simp only [hid, if_true]
    by_cases hgen : (s.keyGen env.rand).1 = ""
    · simp [hgen, eventsSince]
    · simp [hgen, RedisStore.save, hser, hL', hbig, eventsSince]
  · simp [hid, RedisStore.save, hser, hL', hbig, eventsSince]

/-- Witness of C1, amended: the server holds `session:abc`, and the session
`abc` with `MaxAge = -1` is saved. -/
theorem Save_nonpositive_maxAge_deletes_witness :
    storedWorld.redis.data "session:abc" = some ⟨[0], 60⟩ ∧
    (sampleStore.Save storedWorld ⟨[]⟩ (sampleSession "abc" [] (-1))).err = none ∧
    (sampleStore.Save storedWorld ⟨[]⟩ (sampleSession "abc" [] (-1))).world.redis.data
      ("session:" ++ "abc") = none :=
  ⟨by decide,
   (Save_nonpositive_maxAge_deletes sampleStore storedWorld ⟨[]⟩ (sampleSession "abc" [] (-1))
     (by decide)).1.2 rfl,
   ((Save_nonpositive_maxAge_deletes sampleStore storedWorld ⟨[]⟩ (sampleSession "abc" [] (-1))
     (by decide)).2 (by decide)).1⟩

/-- Witness of C2: a cap of 2 bytes and the three-byte payload of
`key = value2`. -/
theorem Save_payload_too_large_witness :
    ((sampleStore.SetMaxLength 2).Save emptyWorld ⟨[]⟩
      (sampleSession "abc" [("key", "value2")] 60)).err ≠ none :=
  (Save_payload_too_large (sampleStore.SetMaxLength 2) emptyWorld ⟨[]⟩
    (sampleSession "abc" [("key", "value2")] 60) [1, 2, 3]
    (by decide) (by decide) rfl (by decide)).1

/-- C8: when the session has `MaxAge > 0` and an empty ID and the key
generator returns the empty string, `Save` returns an error, leaves the Redis
state as it was, performs no `Set`, adds no cookie and leaves the ID empty;
and for every session whatsoever, each `Set` that `Save` performs is under
`keyPrefix + ID` with a non-empty ID, hence never under `keyPrefix` alone. -/
theorem Save_never_sets_empty_id (s : RedisStore) (env : World) (w : ResponseWriter)
    (session : Session) :
    (0 < session.Options.MaxAge → session.ID = "" → (s.keyGen env.rand).1 = "" →
      (s.Save env w session).err ≠ none ∧
      (s.Save env w session).world.redis = env.redis ∧
      (∀ k v t, Event.redisSet k v t ∉ eventsSince env (s.Save env w session).world) ∧
      (s.Save env w session).w = w ∧
      (s.Save env w session).session.ID = "") ∧
    (∀ k v t, Event.redisSet k v t ∈ eventsSince env (s.Save env w session).world →
      (s.Save env w session).session.ID ≠ "" ∧
      k = s.keyPrefix ++ (s.Save env w session).session.ID ∧
      k ≠ s.keyPrefix) := by
  constructor
  · intro hage hid hgen
    have hage' : ¬ session.Options.MaxAge ≤ 0 := by omega
    unfold RedisStore.Save
    simp [hage', hid, hgen, eventsSince]
  · intro k v t
    unfold RedisStore.Save
    by_cases hage : session.Options.MaxAge ≤ 0
    · simp only [hage, if_true]
      unfold RedisStore.delete Redis.Del
      cases hf : env.redis.fault <;> simp [hf, eventsSince]
    · simp only [hage, if_false]
      have hpre : ∀ id : String, id ≠ "" → s.keyPrefix ++ id ≠ s.keyPrefix := by
        intro id hne h
        exact hne ((append_eq_self_iff _ _).1 h)
      by_cases hid : session.ID = ""
      · by_cases hgen : (s.keyGen env.rand).1 = ""
        · simp [hid, hgen, eventsSince]
        · simp only [hid, hgen, if_true, if_false]
          unfold RedisStore.save Redis.Set
          cases hser : s.serializer.Serialize session.Values with
          | error e => simp [eventsSince]
          | ok b =>
            by_cases hbig : s.maxLength ≠ 0 ∧ (b.length : Int) > s.maxLength
            · simp [hbig, eventsSince]
            · simp only [Session.Name]
              cases hf : env.redis.fault <;> cases hen : EncodeMulti session.name
                (s.keyGen env.rand).1 s.Codecs <;>
                simp [hbig, hf, eventsSince] <;>
                intro h1 _ _ <;> subst h1 <;>
                exact ⟨hgen, rfl, hpre _ hgen⟩
      · simp only [hid, if_false]
        unfold RedisStore.save Redis.Set
        cases hser : s.serializer.Serialize session.Values with
        | error e => simp [eventsSince]
        | ok b =>
          by_cases hbig : s.maxLength ≠ 0 ∧ (b.length : Int) > s.maxLength
          · simp [hbig, eventsSince]
          · simp only [Session.Name]
            cases hf : env.redis.fault <;> cases hen : EncodeMulti session.name
              session.ID s.Codecs <;>
              simp [hbig, hf, eventsSince] <;>
              intro h1 _ _ <;> subst h1 <;>
              exact ⟨hid, rfl, hpre _ hid⟩

/-- Witness of C8: the random source of the empty world is exhausted, so
`generateRandomKey` returns the empty string. -/
theorem Save_never_sets_empty_id_witness :
    (sampleStore.Save emptyWorld ⟨[]⟩ (sampleSession "" [] 60)).err ≠ none :=
  ((Save_never_sets_empty_id sampleStore emptyWorld ⟨[]⟩ (sampleSession "" [] 60)).1
    (by decide) (by decide) (by decide)).1

theorem Cookie_absent (r : Request) (name : String) (h : ∀ c ∈ r.cookies, c.1 ≠ name) :
    r.Cookie name = .error .errNoCookie := by
  unfold Request.Cookie
  have : r.cookies.find? (fun c => c.1 == name) = none := by
    rw [List.find?_eq_none]
    intro c hc
    simpa using h c hc
  rw [this]

/-- C9: for a request without a cookie under the session name, `New` returns
no error and a session with `IsNew = true`, empty `Values` and `Options` equal
to the default options of the store, which are the ones last given to
`Options`; it calls no collaborator and leaves the Redis state as it was.  The
session holds its own copy of the options: after the session options are
replaced by any others and the session is saved, a further `New` on the store
still hands out the store defaults. -/
theorem New_without_cookie (s : RedisStore) (env : World) (r : Request) (name : String)
    (hno : ∀ c ∈ r.cookies, c.1 ≠ name) :
    (s.New env r name).err = none ∧
    (s.New env r name).session.IsNew = true ∧
    (s.New env r name).session.Values = [] ∧
    (s.New env r name).session.Options = s.options ∧
    (∀ opts, ((s.Options opts).New env r name).session.Options = opts) ∧
    eventsSince env (s.New env r name).world = [] ∧
    (s.New env r name).world.redis = env.redis ∧
    (∀ (o : Options) (w : ResponseWriter),
      (s.New (s.Save (s.New env r name).world w
        { (s.New env r name).session with Options := o }).world r name).session.Options
        = s.options) := by
  have hsimp : ∀ (s : RedisStore) (env : World),
      s.New env r name = ⟨{ NewSession name with Options := s.options, IsNew := true }, none, env⟩ := by
    intro s env
    unfold RedisStore.New
    simp [Cookie_absent r name hno]
  simp [hsimp, eventsSince, NewSession, RedisStore.Options]

/-- Witness of C9: a request without cookies. -/
theorem New_without_cookie_witness :
    (sampleStore.New emptyWorld ⟨[]⟩ "hello").err = none :=
  (New_without_cookie sampleStore emptyWorld ⟨[]⟩ "hello" (by decide)).1

theorem decodeLoop_all_fail (name value : String) (cs : List Codec)
    (h : ∀ c ∈ cs, ∀ id, c.Decode name value ≠ .ok id) (errs : List String) :
    ∃ es, decodeLoop name value cs errs = .error (.multiError es) := by
  induction cs generalizing errs with
  | nil => exact ⟨errs, rfl⟩
  | cons c cs ih =>
    unfold decodeLoop
    cases hd : c.Decode name value with
    | ok id => exact absurd hd (h c (List.mem_cons_self _ _) id)
    | error e =>
      exact ih (fun c' hc' => h c' (List.mem_cons_of_mem _ hc')) (errs ++ [e])

theorem DecodeMulti_all_fail (name value : String) (cs : List Codec)
    (h : ∀ c ∈ cs, ∀ id, c.Decode name value ≠ .ok id) :
    ∃ err, DecodeMulti name value cs = .error err := by
  unfold DecodeMulti
  by_cases hl : cs.length = 0
  · exact ⟨.errNoCodecs, by simp [hl]⟩
  · obtain ⟨es, hes⟩ := decodeLoop_all_fail name value cs h []
    exact ⟨.multiError es, by simp [hl, hes]⟩

theorem strictStore_rejects (name value : String) :
    ∀ c ∈ strictStore.Codecs, ∀ id, c.Decode name value ≠ .ok id := by
  intro c hc id
  simp [strictStore, strictCodec] at hc
  subst hc
  simp

/-- C3, as stated, fails: with a codec that rejects the cookie value, `New`
returns a non-nil error. -/
theorem New_undecodable_cookie_error_counterexample :
    (requestWith "hello" "tampered").Cookie "hello" = .ok "tampered" ∧
    (∀ c ∈ strictStore.Codecs, ∀ id, c.Decode "hello" "tampered" ≠ .ok id) ∧
    (strictStore.New emptyWorld (requestWith "hello" "tampered") "hello").err ≠ none :=
  ⟨rfl, strictStore_rejects "hello" "tampered", by decide⟩

/-- C3, amended: for a request with a cookie under the session name whose
value no configured codec decodes, `New` returns the error of `DecodeMulti`
(a non-nil error) together with a fresh session with `IsNew = true` and empty
`Values`; it performs no backend `Get` and leaves the Redis state as it
was. -/
theorem New_undecodable_cookie (s : RedisStore) (env : World) (r : Request)
    (name value : String) (hc : r.Cookie name = .ok value)
    (hfail : ∀ c ∈ s.Codecs, ∀ id, c.Decode name value ≠ .ok id) :
    (∃ err, DecodeMulti name value s.Codecs = .error err ∧
      (s.New env r name).err = some err) ∧
    (s.New env r name).session.IsNew = true ∧
    (s.New env r name).session.Values = [] ∧
    (∀ k, Event.redisGet k ∉ eventsSince env (s.New env r name).world) ∧
    (s.New env r name).world.redis = env.redis := by
  obtain ⟨err, herr⟩ := DecodeMulti_all_fail name value s.Codecs hfail
  unfold RedisStore.New
  simp [hc, herr, eventsSince, NewSession]

/-- Witness of C3, amended: the cookie `tampered` under `strictCodec`. -/
theorem New_undecodable_cookie_witness :
    (strictStore.New emptyWorld (requestWith "hello" "tampered") "hello").session.IsNew
      = true :=
  (New_undecodable_cookie strictStore emptyWorld (requestWith "hello" "tampered")
    "hello" "tampered" rfl (strictStore_rejects "hello" "tampered")).2.1

theorem Save_keeps_nonempty_id (s : RedisStore) (env : World) (w : ResponseWriter)
    (sess : Session) (hid : sess.ID ≠ "") (hage : 0 < sess.Options.MaxAge) :
    Event.keyGen ∉ eventsSince env (s.Save env w sess).world ∧
    (s.Save env w sess).session.ID = sess.ID ∧
    (∀ k v t, Event.redisSet k v t ∈ eventsSince env (s.Save env w sess).world →
      k = s.keyPrefix ++ sess.ID) := by
  have hage' : ¬ sess.Options.MaxAge ≤ 0 := by omega
  unfold RedisStore.Save
  simp only [hage', hid, if_false, Session.Name]
  unfold RedisStore.save Redis.Set
  cases hser : s.serializer.Serialize sess.Values with
  | error e => simp [eventsSince]
  | ok b =>
    by_cases hbig : s.maxLength ≠ 0 ∧ (b.length : Int) > s.maxLength
    · simp [hbig, eventsSince]
    · cases hf : env.redis.fault <;> cases hen : EncodeMulti sess.name sess.ID s.Codecs <;>
        simp [hbig, hf, eventsSince] <;> intro k _ _ h _ _ <;> exact h

/-- C4, as stated, fails: the cookie decodes to `abc`, the server holds
nothing under `session:abc`, and `New` returns a session with `IsNew = true`
whose ID is `abc`; saving that session calls no key generator and stores it
under `session:abc`. -/
theorem New_notFound_keeps_id_counterexample :
    (sampleStore.New emptyWorld (requestWith "hello" "abc") "hello").err = none ∧
    (sampleStore.New emptyWorld (requestWith "hello" "abc") "hello").session.IsNew = true ∧
    (sampleStore.New emptyWorld (requestWith "hello" "abc") "hello").session.ID = "abc" ∧
    (sampleStore.New emptyWorld (requestWith "hello" "abc") "hello").session.ID ≠ "" ∧
    (sampleStore.Save emptyWorld ⟨[]⟩
      (sampleStore.New emptyWorld (requestWith "hello" "abc") "hello").session).world.trace
      = [Event.redisSet "session:abc" [0] (durationSeconds sessionExpire),
         Event.encodeMulti "hello" "abc"] := by
  decide

/-- C4, amended: a session that `New` returns for a request without a cookie
has `IsNew = true` and an empty ID.  When the cookie decodes to an identifier
`id` for which the backend reports `redis.Nil`, `New` returns no error and a
session with `IsNew = true` whose ID is `id`: the decoded identifier is kept.
A later `Save` of a session with that ID (non-empty, `MaxAge > 0`) calls no key
generator, keeps the ID, performs its `Set` only under `keyPrefix + id`, and
when it succeeds the backend holds an entry there. -/
theorem New_fresh_session_id (s : RedisStore) (env : World) (r : Request) (name : String) :
    ((∀ c ∈ r.cookies, c.1 ≠ name) →
      (s.New env r name).session.IsNew = true ∧ (s.New env r name).session.ID = "") ∧
    (∀ value id, r.Cookie name = .ok value → DecodeMulti name value s.Codecs = .ok id →
      (env.redis.Get (s.keyPrefix ++ id)).Err = some .redisNil →
      (s.New env r name).err = none ∧
      (s.New env r name).session.IsNew = true ∧
      (s.New env r name).session.ID = id ∧
      ∀ (env1 : World) (w : ResponseWriter) (sess : Session),
        sess.ID = id → id ≠ "" → 0 < sess.Options.MaxAge →
        Event.keyGen ∉ eventsSince env1 (s.Save env1 w sess).world ∧
        (s.Save env1 w sess).session.ID = id ∧
        (∀ k v t, Event.redisSet k v t ∈ eventsSince env1 (s.Save env1 w sess).world →
          k = s.keyPrefix ++ id) ∧
        ((s.Save env1 w sess).err = none →
          ∃ e, (s.Save env1 w sess).world.redis.data (s.keyPrefix ++ id) = some e)) := by
  constructor
  · intro hno
    unfold RedisStore.New
    simp [Cookie_absent r name hno, NewSession]
  · intro value id hc hd hget
    refine ⟨?_, ?_, ?_, ?_⟩
    · unfold RedisStore.New RedisStore.load
      simp [hc, hd, hget]
    · unfold RedisStore.New RedisStore.load
      simp [hc, hd, hget, NewSession]
    · unfold RedisStore.New RedisStore.load
      simp [hc, hd, hget]
    · intro env1 w sess hsid hne hage
      subst hsid
      obtain ⟨h1, h2, h3⟩ := Save_keeps_nonempty_id s env1 w sess hne hage
      refine ⟨h1, h2, h3, ?_⟩
      intro hok
      obtain ⟨id, b, tok, _, hid, _, _, _, _, _, hdata, _⟩ :=
        Save_ok_shape s env1 w sess hage hok
      simp only [hne, if_false] at hid
      subst hid
      exact ⟨_, hdata⟩

/-- Witness of C4, amended: the cookie `abc` on the empty server. -/
theorem New_fresh_session_id_witness :
    (sampleStore.New emptyWorld (requestWith "hello" "abc") "hello").session.ID = "abc" :=
  ((New_fresh_session_id sampleStore emptyWorld (requestWith "hello" "abc") "hello").2
    "abc" "abc" rfl rfl rfl).2.2.1

/-- C5, evaluated at a serializer that reports `redis.Nil`: the cookie decodes
to `abc`, the server holds a payload under `session:abc`, `Get` succeeds and
`Deserialize` fails on the payload.  `New` returns a nil error and a session
with `IsNew = true`, as if no data were stored. -/
theorem New_deserialize_nil_clears_error :
    (requestWith "hello" "abc").Cookie "hello" = .ok "abc" ∧
    DecodeMulti "hello" "abc" nilStore.Codecs = .ok "abc" ∧
    storedWorld.redis.data (nilStore.keyPrefix ++ "abc") = some ⟨[0], 60⟩ ∧
    (storedWorld.redis.Get (nilStore.keyPrefix ++ "abc")).Err = none ∧
    (nilStore.serializer.Deserialize
      (storedWorld.redis.Get (nilStore.keyPrefix ++ "abc")).val []).2 = some .redisNil ∧
    (nilStore.New storedWorld (requestWith "hello" "abc") "hello").err = none ∧
    (nilStore.New storedWorld (requestWith "hello" "abc") "hello").session.IsNew = true := by
  refine ⟨rfl, rfl, by decide, by decide, by decide, by decide, by decide⟩

/-- The error of `New` on a decoded cookie.  When the cookie decodes to an
identifier `id`, `New` returns the error `e` if and only if `e` is not
`redis.Nil` and either the `Get` at `keyPrefix + id` fails with `e`, or it
succeeds and deserializing the fetched payload fails with `e`.  When `Get`
reports `redis.Nil`, `New` returns a nil error and a session with
`IsNew = true`; whenever `New` returns an error the session has
`IsNew = true`. -/
theorem New_error_iff (s : RedisStore) (env : World) (r : Request) (name value id : String)
    (hc : r.Cookie name = .ok value) (hd : DecodeMulti name value s.Codecs = .ok id) :
    (∀ e, (s.New env r name).err = some e ↔
      e ≠ .redisNil ∧
      ((env.redis.Get (s.keyPrefix ++ id)).Err = some e ∨
       ((env.redis.Get (s.keyPrefix ++ id)).Err = none ∧
        (s.serializer.Deserialize (env.redis.Get (s.keyPrefix ++ id)).val []).2 = some e))) ∧
    ((env.redis.Get (s.keyPrefix ++ id)).Err = some .redisNil →
      (s.New env r name).err = none ∧ (s.New env r name).session.IsNew = true) ∧
    ((s.New env r name).err ≠ none → (s.New env r name).session.IsNew = true) := by
  have hload : ∀ sess : Session, sess.ID = id → sess.Values = [] →
      s.load { env with trace := env.trace ++ [.decodeMulti name value] } sess
        = (match (env.redis.Get (s.keyPrefix ++ id)).Err with
           | some err => (sess, some err,
               { env with trace := env.trace ++ [.decodeMulti name value]
                                     ++ [.redisGet (s.keyPrefix ++ id)] })
           | none =>
             ({ sess with Values :=
                  (s.serializer.Deserialize (env.redis.Get (s.keyPrefix ++ id)).val []).1 },
              (s.serializer.Deserialize (env.redis.Get (s.keyPrefix ++ id)).val []).2,
              { env with trace := env.trace ++ [.decodeMulti name value]
                                     ++ [.redisGet (s.keyPrefix ++ id)] })) := by
    intro sess h1 h2
    unfold RedisStore.load
    simp only [h1, h2, StringCmd.Bytes, StringCmd.Err]
    cases (env.redis.Get (s.keyPrefix ++ id)).err <;> rfl
  unfold RedisStore.New
  simp only [hc, hd]
  rw [hload _ rfl rfl]
  generalize env.redis.Get (s.keyPrefix ++ id) = cmd
  obtain ⟨val, err⟩ := cmd
  simp only [StringCmd.Err]
  generalize s.serializer.Deserialize val [] = d
  obtain ⟨v, oe⟩ := d
  clear hload
  cases err with
  | some e0 =>
    by_cases hn : e0 = .redisNil
    · subst hn
      simp
      intro e he h
      exact he h.symm
    · simp [hn]
  | none =>
    cases oe with
    | none => simp
    | some e1 =>
      by_cases hn : e1 = .redisNil
      · subst hn
        simp
        intro e he h
        exact he h.symm
      · simp [hn]

/-- C6, amended: `Save` followed by `New` is a round trip when the token
survives `http.SetCookie`.  Let a session with `MaxAge > 0` be saved without
error, let `c` be the cookie that `Save` added to the response, and let the
request carry the value of `c` under the session name.  If `DecodeMulti`
inverts `EncodeMulti` for the codecs of the store, `Deserialize` into an empty
map inverts `Serialize`, and `sanitizeCookieValue` leaves the token that
`EncodeMulti` produces for the saved ID unchanged, then `New`, run on the world
that `Save` left, returns no error and a session with `IsNew = false`, the ID
of the saved session and the saved `Values`; the key it reads is the key that
`Save` wrote. -/
theorem Save_then_New_roundtrip (s : RedisStore) (env : World) (w : ResponseWriter)
    (session : Session) (r : Request) (c : Cookie)
    (hage : 0 < session.Options.MaxAge)
    (hok : (s.Save env w session).err = none)
    (hemit : (s.Save env w session).w.cookies = w.cookies ++ [c])
    (hreq : r.Cookie session.Name = .ok c.Value)
    (hcodec : ∀ name id t, EncodeMulti name id s.Codecs = .ok t →
      DecodeMulti name t s.Codecs = .ok id)
    (hser : ∀ values b, s.serializer.Serialize values = .ok b →
      s.serializer.Deserialize b [] = (values, none))
    (hsafe : ∀ t, EncodeMulti session.Name (s.Save env w session).session.ID s.Codecs = .ok t →
      sanitizeCookieValue t = t) :
    (s.New (s.Save env w session).world r session.Name).err = none ∧
    (s.New (s.Save env w session).world r session.Name).session.IsNew = false ∧
    (s.New (s.Save env w session).world r session.Name).session.ID
      = (s.Save env w session).session.ID ∧
    (s.New (s.Save env w session).world r session.Name).session.Values = session.Values ∧
    Event.redisGet (s.keyPrefix ++ (s.Save env w session).session.ID)
      ∈ eventsSince (s.Save env w session).world
          (s.New (s.Save env w session).world r session.Name).world ∧
    (∃ b t, Event.redisSet (s.keyPrefix ++ (s.Save env w session).session.ID) b t
      ∈ eventsSince env (s.Save env w session).world) := by
  obtain ⟨id, b, tok1, hne, hid, hb, hen, hsess, hw, hfault, hdata, hev⟩ :=
    Save_ok_shape s env w session hage hok
  have htok : c.Value = tok1 := by
    have hs : sanitizeCookieValue tok1 = tok1 := by
      apply hsafe
      rw [hsess]
      exact hen
    rw [hw] at hemit
    unfold SetCookie at hemit
    by_cases hv : isCookieNameValid (NewCookie session.name tok1 session.Options).Name = true
    · simp only [hv, if_true] at hemit
      have hc := List.append_cancel_left hemit
      simp only [List.cons.injEq, and_true] at hc
      rw [← hc]
      exact hs
    · simp only [hv] at hemit
      have hl := congrArg List.length hemit
      simp at hl
  rw [htok] at hreq
  have hdec := hcodec _ _ _ hen
  have hde := hser _ _ hb
  have hget : (s.Save env w session).world.redis.Get (s.keyPrefix ++ id)
      = ⟨b, none⟩ := by
    unfold Redis.Get
    rw [hfault]
    simp only [hdata]
  have hset : ∃ b t, Event.redisSet (s.keyPrefix ++ id) b t
      ∈ eventsSince env (s.Save env w session).world := ⟨_, _, hev⟩
  rw [hsess]
  generalize (s.Save env w session).world = env1 at hget hset ⊢
  simp only [Session.Name] at hreq hdec ⊢
  unfold RedisStore.New RedisStore.load
  simp [hreq, hdec, hget, StringCmd.Err, StringCmd.Bytes, NewSession, hde, eventsSince]
  exact hset

theorem sampleStore_codec_inverse : ∀ name id t,
    EncodeMulti name id sampleStore.Codecs = .ok t →
    DecodeMulti name t sampleStore.Codecs = .ok id := by
  intro name id t h
  simp [sampleStore, NewRedisStore, EncodeMulti, encodeLoop, plainCodec] at h
  simp [sampleStore, NewRedisStore, DecodeMulti, decodeLoop, plainCodec, h]

theorem sampleStore_serializer_inverse : ∀ values b,
    sampleStore.serializer.Serialize values = .ok b →
    sampleStore.serializer.Deserialize b [] = (values, none) := by
  intro values b h
  simp only [sampleStore, NewRedisStore, bookSerializer] at h ⊢
  by_cases h0 : values = []
  · simp [h0] at h
    subst h
    simp [h0]
  · by_cases h1 : values = [("key", "value2")]
    · simp [h1] at h
      subst h
      simp [h1]
    · simp [h0, h1] at h

/-- C6, as stated, fails: the codec is the plain one, whose `Decode` inverts
its `Encode`, and the session ID is `a;b`.  `Save` succeeds and the cookie it
writes has the value `ab`, since `http.SetCookie` drops the semicolon; `New`
on a request that carries `ab` finds nothing under `session:ab` and returns a
session with `IsNew = true` and no values. -/
theorem Save_then_New_sanitized_counterexample :
    0 < (sampleSession "a;b" [("key", "value2")] 60).Options.MaxAge ∧
    (sampleStore.Save emptyWorld ⟨[]⟩ (sampleSession "a;b" [("key", "value2")] 60)).err
      = none ∧
    ((sampleStore.Save emptyWorld ⟨[]⟩
      (sampleSession "a;b" [("key", "value2")] 60)).w.cookies.map Cookie.Value) = ["ab"] ∧
    (requestWith "hello" "ab").Cookie "hello" = .ok "ab" ∧
    (∀ name id t, EncodeMulti name id sampleStore.Codecs = .ok t →
      DecodeMulti name t sampleStore.Codecs = .ok id) ∧
    (∀ values b, sampleStore.serializer.Serialize values = .ok b →
      sampleStore.serializer.Deserialize b [] = (values, none)) ∧
    (sampleStore.New
      (sampleStore.Save emptyWorld ⟨[]⟩ (sampleSession "a;b" [("key", "value2")] 60)).world
      (requestWith "hello" "ab") "hello").session.IsNew = true ∧
    (sampleStore.New
      (sampleStore.Save emptyWorld ⟨[]⟩ (sampleSession "a;b" [("key", "value2")] 60)).world
      (requestWith "hello" "ab") "hello").session.Values = [] :=
  ⟨by decide, by decide, by decide, rfl, sampleStore_codec_inverse,
   sampleStore_serializer_inverse, by decide, by decide⟩

/-- Witness of C6, amended: the session `abc` holding `key = value2`, saved on
the empty server and read back through the cookie. -/
theorem Save_then_New_roundtrip_witness :
    (sampleStore.New
      (sampleStore.Save emptyWorld ⟨[]⟩ (sampleSession "abc" [("key", "value2")] 60)).world
      (requestWith "hello" "abc") "hello").session.Values = [("key", "value2")] :=
  (Save_then_New_roundtrip sampleStore emptyWorld ⟨[]⟩
    (sampleSession "abc" [("key", "value2")] 60) (requestWith "hello" "abc")
    (NewCookie "hello" "abc" (sampleSession "abc" [("key", "value2")] 60).Options)
    (by decide) (by decide) (by decide) rfl
    sampleStore_codec_inverse sampleStore_serializer_inverse
    (by
      intro t h
      have ht : t = "abc" := by
        simpa [sampleStore, NewRedisStore, EncodeMulti, encodeLoop, plainCodec] using h.symm
      rw [ht]
      decide)).2.2.2.1

/-- C7, evaluated at `MaxAge = 0`: the server holds `session:abc`, the
session `abc` has `MaxAge = 0` and the store has `DefaultMaxAge = 1200`.
`Save` returns no error, performs the `Del` of `session:abc` and no `Set`,
leaves no entry under that key, and adds a cookie with the empty value. -/
theorem Save_zero_maxAge_deletes :
    sampleStore.DefaultMaxAge = 1200 ∧
    (sampleStore.Save storedWorld ⟨[]⟩ (sampleSession "abc" [("key", "value2")] 0)).err
      = none ∧
    (sampleStore.Save storedWorld ⟨[]⟩ (sampleSession "abc" [("key", "value2")] 0)).world.trace
      = [Event.redisDel "session:abc"] ∧
    (sampleStore.Save storedWorld ⟨[]⟩
      (sampleSession "abc" [("key", "value2")] 0)).world.redis.data "session:abc" = none ∧
    ((sampleStore.Save storedWorld ⟨[]⟩
      (sampleSession "abc" [("key", "value2")] 0)).w.cookies.map Cookie.Value) = [""] := by
  decide

/-- The test vectors of RFC 4648, section 10, for base32. -/
theorem EncodeToString_rfc4648 :
    EncodeToString [] = "" ∧
    EncodeToString [102] = "MY======" ∧
    EncodeToString [102, 111] = "MZXQ====" ∧
    EncodeToString [102, 111, 111] = "MZXW6===" ∧
    EncodeToString [102, 111, 111, 98] = "MZXW6YQ=" ∧
    EncodeToString [102, 111, 111, 98, 97] = "MZXW6YTB" ∧
    EncodeToString [102, 111, 111, 98, 97, 114] = "MZXW6YTBOI======" := by
  decide

theorem encodeChar_facts : ∀ n : Fin 32,
    encodeChar n ∈ encodeStd ∧ isStdChar (encodeChar n) = true ∧ encodeChar n ≠ padChar := by
  decide

theorem encodeChar_inj_fin : ∀ a b : Fin 32, encodeChar a = encodeChar b → a = b := by
  decide

theorem encodeChar_inj (a b : Nat) (ha : a < 32) (hb : b < 32)
    (h : encodeChar a = encodeChar b) : a = b := by
  have := encodeChar_inj_fin ⟨a, ha⟩ ⟨b, hb⟩ h
  exact Fin.mk.inj this

theorem encodeChar_ok (n : Nat) :
    encodeChar n ∈ encodeStd ∧ isStdChar (encodeChar n) = true ∧ encodeChar n ≠ padChar := by
  have h := encodeChar_facts ⟨n % 32, Nat.mod_lt _ (by norm_num)⟩
  have : encodeChar (n % 32) = encodeChar n := by
    unfold encodeChar
    rw [Nat.mod_mod]
  simpa [this] using h

theorem quantumGroups_lt (s0 s1 s2 s3 s4 : Nat) (h0 : s0 < 256) (h1 : s1 < 256)
    (h2 : s2 < 256) (h3 : s3 < 256) (h4 : s4 < 256) :
    ∀ g ∈ quantumGroups s0 s1 s2 s3 s4, g < 32 := by
  intro g hg
  simp only [quantumGroups, List.mem_cons, List.mem_singleton, List.not_mem_nil, or_false] at hg
  omega

theorem quantumGroups_inj (s0 s1 s2 s3 s4 t0 t1 t2 t3 t4 : Nat)
    (_h0 : s0 < 256) (h1 : s1 < 256) (h2 : s2 < 256) (h3 : s3 < 256) (h4 : s4 < 256)
    (_g0 : t0 < 256) (g1 : t1 < 256) (g2 : t2 < 256) (g3 : t3 < 256) (g4 : t4 < 256)
    (h : quantumGroups s0 s1 s2 s3 s4 = quantumGroups t0 t1 t2 t3 t4) :
    s0 = t0 ∧ s1 = t1 ∧ s2 = t2 ∧ s3 = t3 ∧ s4 = t4 := by
  simp only [quantumGroups, List.cons.injEq, and_true] at h
  omega

theorem quantumGroups_take7_inj (s0 s1 s2 s3 t0 t1 t2 t3 : Nat)
    (_h0 : s0 < 256) (h1 : s1 < 256) (h2 : s2 < 256) (h3 : s3 < 256)
    (_g0 : t0 < 256) (g1 : t1 < 256) (g2 : t2 < 256) (g3 : t3 < 256)
    (h : (quantumGroups s0 s1 s2 s3 0).take 7 = (quantumGroups t0 t1 t2 t3 0).take 7) :
    s0 = t0 ∧ s1 = t1 ∧ s2 = t2 ∧ s3 = t3 := by
  simp only [quantumGroups, List.take, List.cons.injEq, and_true] at h
  omega

theorem map_encodeChar_inj (xs ys : List Nat) (hx : ∀ g ∈ xs, g < 32) (hy : ∀ g ∈ ys, g < 32)
    (h : xs.map encodeChar = ys.map encodeChar) : xs = ys := by
  induction xs generalizing ys with
  | nil =>
    cases ys with
    | nil => rfl
    | cons y ys => simp at h
  | cons x xs ih =>
    cases ys with
    | nil => simp at h
    | cons y ys =>
      simp only [List.map_cons, List.cons.injEq] at h
      have hxy := encodeChar_inj x y (hx x (List.mem_cons_self _ _))
        (hy y (List.mem_cons_self _ _)) h.1
      rw [hxy, ih ys (fun g hg => hx g (List.mem_cons_of_mem _ hg))
        (fun g hg => hy g (List.mem_cons_of_mem _ hg)) h.2]

theorem encodeChars_cons5 (a b c d e : Byte) (rest : Bytes) :
    encodeChars (a :: b :: c :: d :: e :: rest)
      = (quantumGroups a b c d e).map encodeChar ++ encodeChars rest := by
  simp [encodeChars]

theorem map_encodeChar_std (xs : List Nat) : ∀ c ∈ xs.map encodeChar, StdChar c := by
  intro c hc
  obtain ⟨n, _, rfl⟩ := List.mem_map.1 hc
  exact encodeChar_ok n

theorem length_five_step (n : Nat) (k : Bytes) (h : k.length = 5 * (n + 1) + 4) :
    ∃ a b c d e rest, k = a :: b :: c :: d :: e :: rest ∧ rest.length = 5 * n + 4 := by
  match k, h with
  | a :: b :: c :: d :: e :: rest, h =>
    exact ⟨a, b, c, d, e, rest, rfl, by simp at h; omega⟩

theorem length_four (k : Bytes) (h : k.length = 4) : ∃ a b c d, k = [a, b, c, d] := by
  match k, h with
  | [a, b, c, d], _ => exact ⟨a, b, c, d, rfl⟩

theorem encodeChars_shape (n : Nat) : ∀ k : Bytes, k.length = 5 * n + 4 →
    ∃ body, encodeChars k = body ++ [padChar] ∧ body.length = 8 * n + 7 ∧
      ∀ c ∈ body, StdChar c := by
  induction n with
  | zero =>
    intro k hk
    obtain ⟨a, b, c, d, rfl⟩ := length_four k (by simpa using hk)
    refine ⟨((quantumGroups a b c d 0).take 7).map encodeChar, ?_, ?_, ?_⟩
    · simp [encodeChars]
    · simp [quantumGroups]
    · exact map_encodeChar_std _
  | succ n ih =>
    intro k hk
    obtain ⟨a, b, c, d, e, rest, rfl, hrest⟩ := length_five_step n k hk
    obtain ⟨body, hb, hl, hc⟩ := ih rest hrest
    refine ⟨(quantumGroups a b c d e).map encodeChar ++ body, ?_, ?_, ?_⟩
    · rw [encodeChars_cons5, hb, List.append_assoc]
    · simp [quantumGroups, hl]; omega
    · intro c hmem
      rcases List.mem_append.1 hmem with h | h
      · exact map_encodeChar_std _ c h
      · exact hc c h

theorem encodeChars_inj (n : Nat) : ∀ k k' : Bytes, k.length = 5 * n + 4 →
    k'.length = 5 * n + 4 → encodeChars k = encodeChars k' → k = k' := by
  induction n with
  | zero =>
    intro k k' hk hk' h
    obtain ⟨a, b, c, d, rfl⟩ := length_four k (by simpa using hk)
    obtain ⟨a', b', c', d', rfl⟩ := length_four k' (by simpa using hk')
    simp only [encodeChars, List.append_cancel_right_eq] at h
    have h7 := map_encodeChar_inj _ _
      (fun g hg => quantumGroups_lt a b c d 0 a.2 b.2 c.2 d.2 (by norm_num) g
        (List.mem_of_mem_take hg))
      (fun g hg => quantumGroups_lt a' b' c' d' 0 a'.2 b'.2 c'.2 d'.2 (by norm_num) g
        (List.mem_of_mem_take hg)) h
    obtain ⟨h0, h1, h2, h3⟩ := quantumGroups_take7_inj _ _ _ _ _ _ _ _
      a.2 b.2 c.2 d.2 a'.2 b'.2 c'.2 d'.2 h7
    rw [Fin.ext h0, Fin.ext h1, Fin.ext h2, Fin.ext h3]
  | succ n ih =>
    intro k k' hk hk' h
    obtain ⟨a, b, c, d, e, rest, rfl, hrest⟩ := length_five_step n k hk
    obtain ⟨a', b', c', d', e', rest', rfl, hrest'⟩ := length_five_step n k' hk'
    rw [encodeChars_cons5, encodeChars_cons5] at h
    obtain ⟨hq, hr⟩ := List.append_inj h (by simp [quantumGroups])
    have h8 := map_encodeChar_inj _ _
      (quantumGroups_lt a b c d e a.2 b.2 c.2 d.2 e.2)
      (quantumGroups_lt a' b' c' d' e' a'.2 b'.2 c'.2 d'.2 e'.2) hq
    obtain ⟨h0, h1, h2, h3, h4⟩ := quantumGroups_inj _ _ _ _ _ _ _ _ _ _
      a.2 b.2 c.2 d.2 e.2 a'.2 b'.2 c'.2 d'.2 e'.2 h8
    rw [Fin.ext h0, Fin.ext h1, Fin.ext h2, Fin.ext h3, Fin.ext h4, ih rest rest' hrest hrest' hr]

theorem TrimRight_pad (body : List Char) (hb : ∀ c ∈ body, StdChar c) :
    TrimRight (String.mk (body ++ [padChar])) "=" = String.mk body := by
  unfold TrimRight
  congr 1
  show List.rdropWhile (fun c => "=".data.contains c) (body ++ [padChar]) = body
  rw [List.rdropWhile_concat_pos _ _ _ (by decide), List.rdropWhile_eq_self_iff]
  intro hl hp
  have h := (hb _ (List.getLast_mem hl)).2.2
  apply h
  have : body.getLast hl = '=' := by simpa using hp
  rw [this]
  rfl

theorem GenerateRandomKey_append (k : Bytes) (rest : RandSource) :
    GenerateRandomKey k.length (k ++ rest) = (some k, rest) := by
  simp [GenerateRandomKey]

/-- C10: when the random source delivers the 64 bytes `k`, `generateRandomKey`
returns the base32 encoding of `k` with the trailing `=` removed: the encoding
is the identifier followed by one `=`; the identifier has exactly 103
characters, is not empty, each character is in the alphabet `A`-`Z`, `2`-`7`,
none is `=`, and two 64-byte sequences with the same identifier are equal.
For every state of the random source, the result is the empty string exactly
when `securecookie.GenerateRandomKey` yields nil. -/
theorem generateRandomKey_spec (k : Bytes) (rest : RandSource) (hk : k.length = 64) :
    generateRandomKey (k ++ rest) = (TrimRight (EncodeToString k) "=", rest) ∧
    EncodeToString k = (generateRandomKey (k ++ rest)).1 ++ "=" ∧
    (generateRandomKey (k ++ rest)).1.length = 103 ∧
    (generateRandomKey (k ++ rest)).1 ≠ "" ∧
    (∀ c ∈ (generateRandomKey (k ++ rest)).1.data, c ∈ encodeStd ∧ isStdChar c = true) ∧
    '=' ∉ (generateRandomKey (k ++ rest)).1.data ∧
    (∀ (k' : Bytes) (rest' : RandSource), k'.length = 64 →
      (generateRandomKey (k' ++ rest')).1 = (generateRandomKey (k ++ rest)).1 → k' = k) ∧
    (∀ src : RandSource,
      (generateRandomKey src).1 = "" ↔ (GenerateRandomKey 64 src).1 = none) := by
  have hval : ∀ (k : Bytes) (rest : RandSource), k.length = 64 →
      ∃ body, generateRandomKey (k ++ rest) = (String.mk body, rest) ∧
        TrimRight (EncodeToString k) "=" = String.mk body ∧
        encodeChars k = body ++ [padChar] ∧ body.length = 103 ∧ ∀ c ∈ body, StdChar c := by
    intro k rest hk
    obtain ⟨body, hb, hl, hc⟩ := encodeChars_shape 12 k (by simpa using hk)
    have ht : TrimRight (EncodeToString k) "=" = String.mk body := by
      unfold EncodeToString
      rw [hb]
      exact TrimRight_pad body hc
    refine ⟨body, ?_, ht, hb, by simpa using hl, hc⟩
    have hg := GenerateRandomKey_append k rest
    rw [hk] at hg
    unfold generateRandomKey
    rw [hg]
    simp only [ht]
  obtain ⟨body, hg, ht, hb, hl, hc⟩ := hval k rest hk
  refine ⟨by rw [hg, ht], ?_, ?_, ?_, ?_, ?_, ?_, ?_⟩
  · rw [hg]
    unfold EncodeToString
    rw [hb]
    rfl
  · rw [hg]
    simpa using hl
  · rw [hg]
    intro h
    have : body = [] := by simpa using congrArg String.data h
    rw [this] at hl
    simp at hl
  · rw [hg]
    intro c hmem
    exact ⟨(hc c hmem).1, (hc c hmem).2.1⟩
  · rw [hg]
    intro hmem
    exact (hc _ hmem).2.2 rfl
  · intro k' rest' hk' heq
    obtain ⟨body', hg', _, hb', _, _⟩ := hval k' rest' hk'
    rw [hg, hg'] at heq
    have hbody : body' = body := by simpa using congrArg String.data heq
    apply encodeChars_inj 12 k' k (by simpa using hk') (by simpa using hk)
    rw [hb, hb', hbody]
  · intro src
    unfold generateRandomKey GenerateRandomKey
    by_cases hlen : 64 ≤ src.length
    · have htk : (src.take 64).length = 64 := by simp; omega
      obtain ⟨body1, _, ht1, _, hl1, _⟩ := hval (src.take 64) [] htk
      simp only [hlen, if_true, ht1]
      constructor
      · intro h
        have : body1 = [] := by simpa using congrArg String.data h
        rw [this] at hl1
        simp at hl1
      · intro h
        simp at h
    · simp [hlen]

/-- Witness of C10: sixty-four zero bytes. -/
theorem generateRandomKey_spec_witness :
    (generateRandomKey (List.replicate 64 0 ++ [])).1.length = 103 :=
  (generateRandomKey_spec (List.replicate 64 0) [] (by decide)).2.2.1

end Redisstore
